import Mathlib

/-!
Verification of the MeetScribe dispatch and job-lifecycle pipeline.

This file gives a shallow embedding, in Lean 4, of the parts of the
MeetScribe code base that the specification's claims are about:

* the frontend JobStore (`backend/app/services/job_store.py`) and the
  startup sequence (`backend/app/main.py`, `lifespan`);
* the meeting repository (`backend/app/repositories/meeting_repository.py`);
* the speaker-assignment step of the diarizer (`gpu-worker/core/diarizer.py`);
* the transcription orchestrator (`backend/app/transcription/service.py`
  and `backend/app/transcription/fallback.py`);
* the GPU submit/poll client (`backend/app/transcription/gpu_client.py`);
* the schema migrator (`backend/app/database.py`);
* the worker job engine (`gpu-worker/worker_server.py`, `transcribe.py`).

Modelling conventions: Python `datetime` values and float timestamps are
rationals (`Time` is in hours for the job store so that
`timedelta(hours=h)` is just subtraction; seconds elsewhere); JSON
payloads that the code never inspects are a type parameter; Python
exceptions are `Except` error values carrying the message string; the
cooperative-concurrency parts are transition systems whose steps are the
code's atomic (await-free) blocks.
-/

namespace MeetScribe

/-- Timestamps, as rationals. For the frontend job store they are measured
in hours, so that `datetime.now() - timedelta(hours=h)` is `now - h`. -/
abbrev Time := ℚ

/-! ## Frontend JobStore (`backend/app/services/job_store.py`, `backend/app/models.py`)

A row of the `jobs` table, from the `Job` model (`models.py:50`):
`job_id` (unique), `meeting_id`, `status` (default `"queued"`),
`created_at`/`updated_at` (default `datetime.now()`), `result` (JSON,
nullable, abstracted by the type parameter `ρ`), `error` (nullable). -/
structure JobRec (ρ : Type) where
  job_id : String
  meeting_id : Nat
  status : String
  created_at : Time
  updated_at : Time
  result : Option ρ
  error : Option String
  deriving Repr, DecidableEq

/-- Error raised by `JobStore.create_job` when the UNIQUE constraint on
`jobs.job_id` (`models.py:54`) is violated. The Python driver surfaces it
as an `IntegrityError`; the spec calls this failure `DuplicateJob`. -/
inductive JobStoreError where
  | duplicateJob
  deriving Repr, DecidableEq

/-- `JobStore.create_job(job_id, meeting_id)` (`job_store.py:21`): adds
`Job(job_id=job_id, meeting_id=meeting_id)` and commits. The remaining
columns take the model defaults (`models.py:50`): status `"queued"`,
`created_at = updated_at = now`, `result = error = None`. When a row with
the same `job_id` already exists the UNIQUE constraint makes the commit
fail and the rolled-back transaction leaves the table as it was; the
second component reports that error. -/
def create_job (now : Time) (jobId : String) (meetingId : Nat)
    (store : List (JobRec ρ)) : List (JobRec ρ) × Option JobStoreError :=
  if store.any (fun r => r.job_id == jobId) then
    (store, some .duplicateJob)
  else
    (store ++ [{ job_id := jobId, meeting_id := meetingId, status := "queued",
                 created_at := now, updated_at := now,
                 result := none, error := none }], none)

/-- `JobStore.update_status(job_id, status, result=None, error=None)`
(`job_store.py:27`): selects the first row whose `job_id` matches and, if
one exists, sets `status`, sets `updated_at` to now, and overwrites
`result`/`error` only when the corresponding argument `is not None`.
When no row matches it returns without touching the table. -/
def update_status (now : Time) (jobId : String) (status : String)
    (result : Option ρ) (error : Option String) :
    List (JobRec ρ) → List (JobRec ρ)
  | [] => []
  | r :: rs =>
    if r.job_id == jobId then
      { r with
        status := status
        updated_at := now
        result := match result with | some v => some v | none => r.result
        error := match error with | some e => some e | none => r.error } :: rs
    else
      r :: update_status now jobId status result error rs

/-- The row predicate of `JobStore.cleanup_old_jobs` (`job_store.py:63`):
status in `("completed", "failed")` and `created_at < now - timedelta(hours=max_age_hours)`. -/
def isOldTerminal (now maxAgeHours : Time) (r : JobRec ρ) : Bool :=
  (r.status == "completed" || r.status == "failed")
    && decide (r.created_at < now - maxAgeHours)

/-- `JobStore.cleanup_old_jobs(max_age_hours)` (`job_store.py:59`): deletes
every row matching `isOldTerminal` and returns the surviving table
together with the number of deleted rows. -/
def cleanup_old_jobs (now maxAgeHours : Time) (store : List (JobRec ρ)) :
    List (JobRec ρ) × Nat :=
  ((store.filter fun r => !isOldTerminal now maxAgeHours r),
   (store.filter fun r => isOldTerminal now maxAgeHours r).length)

/-- The frontend startup sequence (`main.py:33`, `lifespan`), projected to
its effect on the rows of the `jobs` table. The body loads the config,
connects the database (`Database.connect`: `create_all` plus the schema
migrations, which create tables and never delete job rows) and constructs
the repository, transcription service, job store and meeting service. No
`JobStore` method is invoked anywhere in it — in particular it never calls
`cleanup_old_jobs` — so the job rows it leaves behind are exactly the job
rows it found. -/
def lifespan_startup (store : List (JobRec ρ)) : List (JobRec ρ) :=
  store

/-! ## Meeting repository (`backend/app/repositories/meeting_repository.py`)

Rows of the `transcripts`, `segments` and `meetings` tables, with the
columns `save_transcript` touches. The JSON `stats` column is abstracted
by the type parameter `σ`. -/
structure TransRec (σ : Type) where
  meeting_id : Nat
  full_text : String
  formatted : String
  stats : σ
  deriving Repr, DecidableEq

structure SegRec where
  meeting_id : Nat
  speaker : String
  text : String
  start_time : ℚ
  end_time : ℚ
  deriving Repr, DecidableEq

structure MeetingRow where
  id : Nat
  status : String
  updated_at : Time
  deriving Repr, DecidableEq

/-- One element of the `segments: list[dict]` argument of `save_transcript`;
the code reads the keys `"speaker"`, `"text"`, `"start"`, `"end"`
(`meeting_repository.py:96`). The field `end` is called `stop` because
`end` is a Lean keyword. -/
structure SegIn where
  speaker : String
  text : String
  start : ℚ
  stop : ℚ
  deriving Repr, DecidableEq

/-- Database state touched by `MeetingRepository.save_transcript`. -/
structure RepoState (σ : Type) where
  transcripts : List (TransRec σ)
  segments : List SegRec
  meetings : List MeetingRow
  deriving Repr, DecidableEq

/-- The transcript upsert of `save_transcript` (`meeting_repository.py:76`):
select the first `Transcript` row with the given `meeting_id`; if absent,
create one; in both cases overwrite `full_text`, `formatted` and `stats`
with the given values. -/
def upsertTranscript (mid : Nat) (fullText formatted : String) (stats : σ) :
    List (TransRec σ) → List (TransRec σ)
  | [] => [{ meeting_id := mid, full_text := fullText, formatted := formatted, stats := stats }]
  | t :: ts =>
    if t.meeting_id == mid then
      { meeting_id := mid, full_text := fullText, formatted := formatted, stats := stats } :: ts
    else
      t :: upsertTranscript mid fullText formatted stats ts

/-- The row a `segments` entry is inserted as (`meeting_repository.py:96`). -/
def SegIn.toRow (mid : Nat) (s : SegIn) : SegRec :=
  { meeting_id := mid, speaker := s.speaker, text := s.text,
    start_time := s.start, end_time := s.stop }

/-- `MeetingRepository.save_transcript(meeting_id, segments, formatted, stats)`
(`meeting_repository.py:66`), a single transaction (`session.begin()`):
upsert the transcript row with `full_text = " ".join(seg["text"])`, delete
every existing `Segment` row of the meeting, insert the given segments,
and mark the meeting `completed` with a fresh `updated_at`. -/
def save_transcript (now : Time) (mid : Nat) (segments : List SegIn)
    (formatted : String) (stats : σ) (st : RepoState σ) : RepoState σ :=
  { transcripts :=
      upsertTranscript mid (String.intercalate " " (segments.map SegIn.text))
        formatted stats st.transcripts
    segments :=
      (st.segments.filter fun s => !(s.meeting_id == mid))
        ++ segments.map (SegIn.toRow mid)
    meetings :=
      st.meetings.map fun m =>
        if m.id == mid then { m with status := "completed", updated_at := now } else m }

/-! ## Speaker assignment (`gpu-worker/core/diarizer.py`) -/

/-- `TranscriptSegment` (`gpu-worker/core/domain.py`). The field `end` is
called `stop` because `end` is a Lean keyword; Python floats are ℚ. -/
structure TranscriptSegment where
  speaker : String
  text : String
  start : ℚ
  stop : ℚ
  deriving Repr, DecidableEq

/-- One diarization turn `(start, end, speaker_label)` (`diarizer.py:60`). -/
structure Turn where
  start : ℚ
  stop : ℚ
  label : String
  deriving Repr, DecidableEq

/-- Python `str.split("_")`, on the character list of the string: splits at
every underscore, keeping empty pieces, so `"".split("_") == [""]`. -/
def splitOnUnderscore : List Char → List (List Char)
  | [] => [[]]
  | c :: cs =>
    let rest := splitOnUnderscore cs
    if c = '_' then [] :: rest
    else
      match rest with
      | r :: rs => (c :: r) :: rs
      | [] => [[c]]

/-- Python `int(s)` restricted to strings without underscores (the input
here is one piece of a `split("_")`): optional surrounding whitespace, an
optional sign, then one or more decimal digits; `none` where Python raises
`ValueError`. -/
def pyIntChars? (cs : List Char) : Option Int :=
  let t := ((cs.dropWhile Char.isWhitespace).reverse.dropWhile Char.isWhitespace).reverse
  let (neg, digits) :=
    match t with
    | '-' :: rest => (true, rest)
    | '+' :: rest => (false, rest)
    | _ => (false, t)
  if 0 < digits.length && digits.all Char.isDigit then
    let n : Nat := digits.foldl (fun acc c => 10 * acc + (c.toNat - 48)) 0
    some (if neg then -(n : Int) else (n : Int))
  else
    none

/-- `_friendly_label` (`diarizer.py:94`): parse the last `"_"`-separated
piece of the label as an int; on success return `f"Speaker {num + 1}"`,
on `ValueError` return the label unchanged. -/
def _friendly_label (label : String) : String :=
  match pyIntChars? ((splitOnUnderscore label.toList).getLastD []) with
  | some num => "Speaker " ++ toString (num + 1)
  | none => label

/-- The temporal overlap computed inside `assign_speakers`
(`diarizer.py:85`): `min(seg.end, turn_end) - max(seg.start, turn_start)`. -/
def segTurnOverlap (seg : TranscriptSegment) (t : Turn) : ℚ :=
  min seg.stop t.stop - max seg.start t.start

/-- One iteration of the inner loop of `assign_speakers` (`diarizer.py:84`):
replace the best `(speaker, overlap)` pair whenever this turn's overlap is
strictly greater than the best overlap so far. -/
def bestStep (seg : TranscriptSegment) (best : String × ℚ) (t : Turn) : String × ℚ :=
  let ov := segTurnOverlap seg t
  if best.2 < ov then (t.label, ov) else best

/-- The inner loop of `assign_speakers` (`diarizer.py:82`), starting from
`(seg.speaker, 0.0)`. -/
def bestTurnFor (seg : TranscriptSegment) (turns : List Turn) : String × ℚ :=
  turns.foldl (bestStep seg) (seg.speaker, 0)

/-- `assign_speakers(segments, turns)` (`diarizer.py:69`): with no turns
return the segments unchanged; otherwise overwrite each segment's speaker
with `_friendly_label(best_speaker)` where `best_speaker` is computed by
`bestTurnFor`. -/
def assign_speakers (segments : List TranscriptSegment) (turns : List Turn) :
    List TranscriptSegment :=
  if turns.isEmpty then segments
  else segments.map fun seg => { seg with speaker := _friendly_label (bestTurnFor seg turns).1 }

/-! ## TranscriptionResult and the orchestrator
(`backend/app/transcription/result.py`, `service.py`, `fallback.py`)

JSON payloads (`segments: list[dict]`, `stats: dict`) are abstracted by
the type parameter `ρ`. -/

/-- The `TranscriptionResult` dataclass (`transcription/result.py`). -/
structure TranscriptionResult (ρ : Type) where
  success : Bool
  segments : Option ρ := none
  formatted : Option String := none
  stats : Option ρ := none
  error : Option String := none
  used_fallback : Bool := false
  deriving Repr, DecidableEq

/-- The dict returned by the worker pipeline, as read by the clients with
`result.get("segments")`, `result.get("formatted")`, `result.get("stats")`
(missing keys give `None`). -/
structure WorkerResult (ρ : Type) where
  segments : Option ρ := none
  formatted : Option String := none
  stats : Option ρ := none
  deriving Repr, DecidableEq

/-- What happens inside `FallbackTranscriber.transcribe`
(`transcription/fallback.py:33`): importing `process_meeting` from the
module `transcribe` can fail, and the call in the executor can either
return a result dict or raise (the raised exception's `str` is carried). -/
inductive FallbackOutcome (ρ : Type) where
  | importError
  | pipelineOk (r : WorkerResult ρ)
  | pipelineRaise (msg : String)
  deriving Repr, DecidableEq

/-- `FallbackTranscriber.transcribe` (`transcription/fallback.py:33`): on a
pipeline result, success with the dict's fields and `used_fallback=True`;
on `ImportError`, the fixed unavailability error; on any other exception,
failure with `error=str(e)`. Every branch sets `used_fallback=True`. -/
def FallbackTranscriber.transcribe (out : FallbackOutcome ρ) : TranscriptionResult ρ :=
  match out with
  | .pipelineOk r =>
    { success := true, segments := r.segments, formatted := r.formatted,
      stats := r.stats, used_fallback := true }
  | .importError =>
    { success := false,
      error := some "Fallback transcriber not available (gpu-worker not importable)",
      used_fallback := true }
  | .pipelineRaise msg =>
    { success := false, error := some msg, used_fallback := true }

/-- The environment of one `TranscriptionService.transcribe` call
(`transcription/service.py:30`): `gpu_available` is the value after the
probe (and, when a smart plug is configured, the wake loop); `gpuResult`
is what `self.gpu_client.transcribe` returns if it is called;
`fallbackOutcome` is `some` exactly when `self.fallback` is configured
(`config.fallback.enabled`), carrying what its pipeline call would do. -/
structure TranscribeEnv (ρ : Type) where
  gpu_available : Bool
  gpuResult : TranscriptionResult ρ
  fallbackOutcome : Option (FallbackOutcome ρ)
  deriving Repr, DecidableEq

/-- `TranscriptionService.transcribe` (`transcription/service.py:30`),
paired with the number of times the fallback transcriber is invoked:
if the GPU is available, call the submit/poll path and return its result
when successful; otherwise (GPU unavailable, or the GPU path failed) run
the fallback when configured, else return the fixed failure. -/
def TranscriptionService.transcribe (env : TranscribeEnv ρ) :
    TranscriptionResult ρ × Nat :=
  let fallbackOrFail : TranscriptionResult ρ × Nat :=
    match env.fallbackOutcome with
    | some out => (FallbackTranscriber.transcribe out, 1)
    | none => ({ success := false, error := some "GPU unavailable and fallback disabled" }, 0)
  if env.gpu_available then
    if env.gpuResult.success then (env.gpuResult, 0) else fallbackOrFail
  else fallbackOrFail

/-! ## GPU submit/poll client (`backend/app/transcription/gpu_client.py`)

The polling loop `GPUClient._poll_until_complete` (`gpu_client.py:153`) is
modelled as a discrete loop: each iteration first checks the deadline,
then sleeps `poll_interval`, then issues one GET. Time advances by
`poll_interval` per iteration (the GET itself is treated as instantaneous),
so iteration `k` runs iff `k * poll_interval < timeout` and the loop
performs exactly `numPollSlots timeout poll_interval` iterations unless a
terminal response ends it earlier. -/

/-- The parsed JSON body of a `GET /jobs/{id}` 200 response, as the loop
reads it: `data["status"]` (required), `data.get("error", ...)`,
`data["result"]` (required only on `completed`; its absence there is a
`KeyError`). -/
structure PollBody (ρ : Type) where
  status : String
  error : Option String := none
  result : Option (WorkerResult ρ) := none
  deriving Repr, DecidableEq

/-- One observed outcome of the GET inside the polling loop: either a
transport error (`httpx.TimeoutException` / `httpx.ConnectError`) or a
response with a status code and body. -/
inductive PollResponse (ρ : Type) where
  | transportError
  | http (code : Nat) (body : PollBody ρ)
  deriving Repr, DecidableEq

/-- Classification of one poll response by the loop body
(`gpu_client.py:167`.. in source order): transport error → continue;
404 → terminal lost-job failure; 401/403 → terminal auth failure;
any other non-200 → continue; 200 → by `data["status"]`: completed →
terminal success built from `data["result"]` (a missing `result` key is
the uncaught `KeyError`, the `.error` case); failed → terminal failure
with `data.get("error", "Worker job failed")`; anything else (queued,
processing) → continue. `none` means the loop continues. -/
def pollClassify (resp : PollResponse ρ) :
    Option (Except String (TranscriptionResult ρ)) :=
  match resp with
  | .transportError => none
  | .http code body =>
    if code == 404 then
      some (.ok { success := false,
                  error := some "Worker lost track of job (possible restart)" })
    else if code == 401 || code == 403 then
      some (.ok { success := false,
                  error := some ("Worker authentication failed (" ++ toString code ++ ")") })
    else if !(code == 200) then
      none
    else if body.status == "completed" then
      match body.result with
      | some r =>
        some (.ok { success := true, segments := r.segments,
                    formatted := r.formatted, stats := r.stats })
      | none => some (.error "KeyError: result")
    else if body.status == "failed" then
      some (.ok { success := false, error := some (body.error.getD "Worker job failed") })
    else
      none

/-- The fixed result returned when the deadline expires
(`gpu_client.py:242`). -/
def pollTimeoutResult : TranscriptionResult ρ :=
  { success := false, error := some "GPU worker timeout (polling)" }

/-- The polling loop, with `fuel` remaining iterations and `k` the index of
the next poll; `polls` gives the outcome of the `k`-th GET. -/
def pollLoop (polls : Nat → PollResponse ρ) :
    Nat → Nat → Except String (TranscriptionResult ρ)
  | 0, _ => .ok pollTimeoutResult
  | fuel + 1, k =>
    match pollClassify (polls k) with
    | some r => r
    | none => pollLoop polls fuel (k + 1)

/-- The number of loop iterations the deadline admits: the number of
naturals `k` with `k * pollInterval < timeout` (for `0 < pollInterval`),
i.e. `⌈timeout / pollInterval⌉` clamped to ℕ. -/
def numPollSlots (timeout pollInterval : ℚ) : Nat :=
  (Int.ceil (timeout / pollInterval)).toNat

/-- `GPUClient._poll_until_complete` (`gpu_client.py:153`) under the
discrete-time model described above. -/
def _poll_until_complete (polls : Nat → PollResponse ρ)
    (timeout pollInterval : ℚ) : Except String (TranscriptionResult ρ) :=
  pollLoop polls (numPollSlots timeout pollInterval) 0

/-! ## Schema migrator (`backend/app/database.py`)

The SQL engine is abstracted by an oracle `ex : String → Option String`
giving, for each statement executed in this run, `none` when it succeeds
and `some msg` when it raises an exception whose `str` is `msg`. The
database state tracked is the `_schema_version` row plus the ordered log
of successfully executed statements; `Database._run_migrations`
(`database.py:71`) runs the whole loop inside one `engine.begin()` block,
so an uncaught exception rolls every statement and version update of the
run back. -/

structure MigrationDB where
  version : Nat
  log : List String
  deriving Repr, DecidableEq

/-- Substring test on character lists (needle, haystack). -/
def charsContain (needle : List Char) : List Char → Bool
  | [] => needle.isEmpty
  | c :: cs => needle.isPrefixOf (c :: cs) || charsContain needle cs

/-- The error filter of `_run_migrations` (`database.py:86`):
`"duplicate column" in str(e).lower()`. -/
def isDuplicateColumnError (msg : String) : Bool :=
  charsContain "duplicate column".toList (msg.toList.map Char.toLower)

/-- Execution of one migration statement (`database.py:83`): on success the
statement is recorded; an exception whose message mentions a duplicate
column is swallowed for that statement only; any other exception
propagates. -/
def runStatement (ex : String → Option String) (db : MigrationDB) (sql : String) :
    Except String MigrationDB :=
  match ex sql with
  | none => .ok { db with log := db.log ++ [sql] }
  | some e => if isDuplicateColumnError e then .ok db else .error e

/-- Execution of one migration's statement list, in order; the first
propagated exception aborts the run. -/
def runStatements (ex : String → Option String) :
    MigrationDB → List String → Except String MigrationDB
  | db, [] => .ok db
  | db, sql :: rest =>
    match runStatement ex db sql with
    | .error e => .error e
    | .ok db' => runStatements ex db' rest

/-- The migration loop of `_run_migrations` (`database.py:77`): `current`
is the version read once before the loop; each migration with
`version > current` runs its statements and then sets the version row to
its version. -/
def runMigrationsFrom (ex : String → Option String) (current : Nat) :
    List (Nat × String × List String) → MigrationDB → Except String MigrationDB
  | [], db => .ok db
  | m :: ms, db =>
    if m.1 ≤ current then runMigrationsFrom ex current ms db
    else
      match runStatements ex db m.2.2 with
      | .error e => .error e
      | .ok db' => runMigrationsFrom ex current ms { db' with version := m.1 }

/-- The body of `Database._run_migrations` (`database.py:71`): read the
stored version once, then run the loop above over the declared
migrations. -/
def _run_migrations (ex : String → Option String)
    (migrations : List (Nat × String × List String)) (db : MigrationDB) :
    Except String MigrationDB :=
  runMigrationsFrom ex db.version migrations db

/-- The externally visible database state after `Database.connect` runs the
migrations: the loop runs inside a single `async with engine.begin()`
transaction, so on an uncaught exception everything is rolled back and the
committed state is the original one (and startup aborts). -/
def migrationsCommitted (ex : String → Option String)
    (migrations : List (Nat × String × List String)) (db : MigrationDB) :
    MigrationDB :=
  match _run_migrations ex migrations db with
  | .ok db' => db'
  | .error _ => db

/-- The declared migration statements (`database.py:17`, `MIGRATIONS`). -/
def migration1Sql : String := "ALTER TABLE meetings ADD COLUMN audio_file TEXT"

def migration2SqlCreate : String :=
  "CREATE TABLE IF NOT EXISTS jobs ("
    ++ "  id INTEGER PRIMARY KEY,"
    ++ "  job_id TEXT NOT NULL UNIQUE,"
    ++ "  meeting_id INTEGER NOT NULL REFERENCES meetings(id),"
    ++ "  status TEXT NOT NULL DEFAULT 'queued',"
    ++ "  created_at TIMESTAMP,"
    ++ "  updated_at TIMESTAMP,"
    ++ "  result JSON,"
    ++ "  error TEXT"
    ++ ")"

def migration2SqlIndex : String :=
  "CREATE UNIQUE INDEX IF NOT EXISTS ix_jobs_job_id ON jobs(job_id)"

def MIGRATIONS : List (Nat × String × List String) :=
  [ (1, "Add audio_file column to meetings", [migration1Sql]),
    (2, "Create jobs table", [migration2SqlCreate, migration2SqlIndex]) ]

/-! ## Worker job engine (`gpu-worker/worker_server.py`, `transcribe.py`) -/

/-- The `JobStatus` enum of the worker (`worker_server.py:37`). -/
inductive WorkerJobStatus where
  | queued
  | processing
  | completed
  | failed
  deriving Repr, DecidableEq

/-- The `WorkerJob` dataclass (`worker_server.py:44`); the result dict is
abstracted by `ρ` and monotonic-clock values are ℚ seconds. -/
structure WorkerJob (ρ : Type) where
  job_id : String
  status : WorkerJobStatus := .queued
  progress_step : String := ""
  progress_detail : String := ""
  started_at : Option ℚ := none
  completed_at : Option ℚ := none
  result : Option ρ := none
  error : Option String := none
  deriving Repr, DecidableEq

/-- The parameter names of `def process_meeting(...)` in `transcribe.py:20`
(the module `worker_server.py` imports it from); the function declares no
`**kwargs`. -/
def process_meeting_params : List String :=
  ["mic_path", "tab_path", "metadata", "output_path", "model_size", "device"]

/-- The keyword-argument names used at the call site inside
`_run_transcription` (`worker_server.py:206`). -/
def run_transcription_call_kwargs : List String :=
  ["mic_path", "tab_path", "metadata", "output_path", "transcriber", "on_progress"]

/-- Python keyword-call semantics for a function without `**kwargs`: the
call binds iff every keyword argument names a declared parameter;
otherwise the call itself raises `TypeError` before the body runs. -/
def kwargCallAccepted (params kwargs : List String) : Bool :=
  kwargs.all fun k => params.contains k

/-- The `process_meeting(...)` invocation made by `_run_transcription`
(`worker_server.py:206`): when the keyword call binds, the pipeline body
runs (its outcome abstracted by `pipeline`); when it does not bind, Python
raises `TypeError` without running the pipeline. -/
def invoke_process_meeting (pipeline : Unit → Except String ρ) :
    Except String ρ :=
  if kwargCallAccepted process_meeting_params run_transcription_call_kwargs then
    pipeline ()
  else
    .error "TypeError: process_meeting got an unexpected keyword argument transcriber"

/-- The job-record updates of `_run_transcription` after the lock is
acquired (`worker_server.py:181`): mark processing with `started_at`, run
the `process_meeting` call, then on a result write
`{status: completed, result, completed_at}` and on an exception write
`{status: failed, error: str(e), completed_at}`. -/
def _run_transcription (job : WorkerJob ρ) (pipeline : Unit → Except String ρ)
    (tStart tEnd : ℚ) : WorkerJob ρ :=
  let j := { job with status := WorkerJobStatus.processing, started_at := some tStart }
  match invoke_process_meeting pipeline with
  | .ok r =>
    { j with status := WorkerJobStatus.completed, result := some r,
             completed_at := some tEnd }
  | .error e =>
    { j with status := WorkerJobStatus.failed, error := some e,
             completed_at := some tEnd }

/-! ## Worker concurrency model (`gpu-worker/worker_server.py`)

The worker runs one asyncio event loop; the interleaving of the
`_run_transcription` tasks is modelled as a transition system whose steps
are the code's await-free blocks. Each accepted `POST /transcribe`
submission gets one slot (the `WorkerJob` object its task mutates); the
dict of `WorkerJobStore` is a projection of these slots, so a bound on
processing slots bounds processing store entries. The lock is
`worker.lock`; `acquire` requires it free (a second task awaiting
`async with worker.lock` waits — there is no rejecting transition) and in
the same event-loop step the task sets the job to `processing`
(`worker_server.py:181`, no await between the two); the terminal status
is written before the `async with` block is exited (`worker_server.py:217`,
`worker_server.py:226`), so `release` requires a terminal status; `evict`
is `WorkerJobStore._trim` (`worker_server.py:72`), which only deletes
terminal jobs. -/

structure WorkerEngineState where
  /-- Number of slots (accepted submissions) so far. -/
  nJobs : Nat
  /-- Status of each slot; `none` for unused or evicted slots. -/
  jobSt : Nat → Option WorkerJobStatus
  /-- The task index holding the GPU-slot mutex, if any. -/
  lock : Option Nat

/-- Pointwise update of a slot map. -/
def setSlot (f : Nat → Option WorkerJobStatus) (i : Nat)
    (v : Option WorkerJobStatus) : Nat → Option WorkerJobStatus :=
  fun j => if j = i then v else f j

/-- The steps of the worker engine, one per await-free block of
`worker_server.py` (see the section comment). -/
inductive WorkerStep : WorkerEngineState → WorkerEngineState → Prop where
  | submit (s : WorkerEngineState) :
      WorkerStep s { nJobs := s.nJobs + 1,
                     jobSt := setSlot s.jobSt s.nJobs (some .queued),
                     lock := s.lock }
  | acquire (s : WorkerEngineState) (i : Nat) :
      s.lock = none →
      s.jobSt i = some .queued →
      WorkerStep s { nJobs := s.nJobs,
                     jobSt := setSlot s.jobSt i (some .processing),
                     lock := some i }
  | finish (s : WorkerEngineState) (i : Nat) (st : WorkerJobStatus) :
      s.lock = some i →
      s.jobSt i = some .processing →
      (st = .completed ∨ st = .failed) →
      WorkerStep s { nJobs := s.nJobs,
                     jobSt := setSlot s.jobSt i (some st),
                     lock := some i }
  | release (s : WorkerEngineState) (i : Nat) (st : WorkerJobStatus) :
      s.lock = some i →
      s.jobSt i = some st →
      (st = .completed ∨ st = .failed) →
      WorkerStep s { nJobs := s.nJobs, jobSt := s.jobSt, lock := none }
  | evict (s : WorkerEngineState) (i : Nat) (st : WorkerJobStatus) :
      s.jobSt i = some st →
      (st = .completed ∨ st = .failed) →
      WorkerStep s { nJobs := s.nJobs,
                     jobSt := setSlot s.jobSt i none,
                     lock := s.lock }

/-- The worker process starts with no jobs and the lock free. -/
def workerInit : WorkerEngineState :=
  { nJobs := 0, jobSt := fun _ => none, lock := none }

/-- States reachable by the worker engine from process start. -/
inductive WorkerReachable : WorkerEngineState → Prop where
  | init : WorkerReachable workerInit
  | step {s s' : WorkerEngineState} :
      WorkerReachable s → WorkerStep s s' → WorkerReachable s'

/-- The mutual-exclusion invariant of the worker engine: a slot is
`processing` only while its task holds the GPU-slot mutex. -/
def lockInv (s : WorkerEngineState) : Prop :=
  ∀ i, s.jobSt i = some .processing → s.lock = some i

/-! ## Helper lemmas -/

/-- One worker-engine step preserves the mutual-exclusion invariant. -/
theorem lockInv_step {s s' : WorkerEngineState} (h : WorkerStep s s')
    (ih : lockInv s) : lockInv s' := by
  cases h with
  | submit =>
    intro i hi
    simp only [setSlot] at hi
    by_cases hik : i = s.nJobs
    · rw [if_pos hik] at hi
      simp at hi
    · rw [if_neg hik] at hi
      exact ih i hi
  | acquire i₀ hlock hq =>
    intro i hi
    simp only [setSlot] at hi
    by_cases hik : i = i₀
    · subst hik
      rfl
    · rw [if_neg hik] at hi
      have hc := ih i hi
      rw [hlock] at hc
      exact Option.noConfusion hc
  | finish i₀ st hlock hp hterm =>
    intro i hi
    simp only [setSlot] at hi
    by_cases hik : i = i₀
    · subst hik
      rfl
    · rw [if_neg hik] at hi
      have hc := ih i hi
      rw [hlock] at hc
      exact absurd (Option.some_inj.mp hc).symm hik
  | release i₀ st hlock hst hterm =>
    intro i hi
    have hl := ih i hi
    rw [hlock] at hl
    have hii : i₀ = i := Option.some_inj.mp hl
    subst hii
    rw [hst] at hi
    have hps := Option.some_inj.mp hi
    rcases hterm with hc | hc <;> rw [hc] at hps <;>
      exact WorkerJobStatus.noConfusion hps
  | evict i₀ st hst hterm =>
    intro i hi
    simp only [setSlot] at hi
    by_cases hik : i = i₀
    · rw [if_pos hik] at hi
      exact Option.noConfusion hi
    · rw [if_neg hik] at hi
      exact ih i hi

/-- Every reachable worker-engine state satisfies the mutual-exclusion
invariant. -/
theorem lockInv_reachable : ∀ s, WorkerReachable s → lockInv s := by
  intro s hs
  induction hs with
  | init =>
    intro i hi
    exact Option.noConfusion hi
  | step hr hstep ih => exact lockInv_step hstep ih

/-- Every branch of `FallbackTranscriber.transcribe` sets `used_fallback`. -/
theorem fallback_always_marks_used (out : FallbackOutcome ρ) :
    (FallbackTranscriber.transcribe out).used_fallback = true := by
  cases out <;> rfl

/-- A successful `runStatements` leaves the version untouched and appends
exactly the statements whose execution succeeded (duplicate-column
failures are skipped, anything else would have aborted). -/
theorem runStatements_ok (ex : String → Option String) :
    ∀ (stmts : List String) (db db' : MigrationDB),
      runStatements ex db stmts = .ok db' →
      db'.version = db.version ∧
      db'.log = db.log ++ stmts.filter (fun s => (ex s).isNone) := by
  intro stmts
  induction stmts with
  | nil =>
    intro db db' h
    simp [runStatements] at h
    simp [← h]
  | cons s rest ih =>
    intro db db' h
    rcases hs : ex s with _ | e
    · have h' : runStatements ex { db with log := db.log ++ [s] } rest = .ok db' := by
        simpa [runStatements, runStatement, hs] using h
      obtain ⟨hv, hl⟩ := ih _ _ h'
      refine ⟨hv, ?_⟩
      rw [hl]
      simp [List.filter_cons, hs]
    · rcases hdup : isDuplicateColumnError e with _ | _
      · exfalso
        simp only [runStatements, runStatement, hs, hdup, Bool.false_eq_true,
          if_false] at h
        exact Except.noConfusion h
      · have h' : runStatements ex db rest = .ok db' := by
          simpa [runStatements, runStatement, hs, hdup] using h
        obtain ⟨hv, hl⟩ := ih _ _ h'
        refine ⟨hv, ?_⟩
        rw [hl]
        simp [List.filter_cons, hs]

/-- A left fold by `max` is at least its initial accumulator. -/
theorem le_foldl_max {α : Type} [LinearOrder α] :
    ∀ (l : List α) (v : α), v ≤ l.foldl max v := by
  intro l
  induction l with
  | nil => intro v; exact le_refl v
  | cons x xs ih => intro v; exact le_trans (le_max_left v x) (ih (max v x))

/-- A left fold by `max` dominates every list element. -/
theorem mem_le_foldl_max {α : Type} [LinearOrder α] :
    ∀ (l : List α) (v x : α), x ∈ l → x ≤ l.foldl max v := by
  intro l
  induction l with
  | nil => intro v x hx; cases hx
  | cons y ys ih =>
    intro v x hx
    rcases List.mem_cons.mp hx with rfl | hx
    · exact le_trans (le_max_right v x) (le_foldl_max ys (max v x))
    · exact ih (max v y) x hx

/-- A left fold by `max` is the initial accumulator or one of the list
elements. -/
theorem foldl_max_cases {α : Type} [LinearOrder α] :
    ∀ (l : List α) (v : α), l.foldl max v = v ∨ ∃ x ∈ l, l.foldl max v = x := by
  intro l
  induction l with
  | nil => intro v; exact Or.inl rfl
  | cons y ys ih =>
    intro v
    rcases ih (max v y) with h | ⟨x, hx, hfx⟩
    · rcases max_choice v y with hm | hm
      · left
        rw [List.foldl_cons, h, hm]
      · right
        exact ⟨y, List.mem_cons_self _ _, by rw [List.foldl_cons, h, hm]⟩
    · right
      exact ⟨x, List.mem_cons_of_mem _ hx, by rw [List.foldl_cons]; exact hfx⟩

/-- When no turn strictly beats the running best overlap, the inner loop of
`assign_speakers` keeps its accumulator. -/
theorem bestFold_no_improve (seg : TranscriptSegment) :
    ∀ (turns : List Turn) (s₀ : String) (v₀ : ℚ),
      (∀ t ∈ turns, segTurnOverlap seg t ≤ v₀) →
      turns.foldl (bestStep seg) (s₀, v₀) = (s₀, v₀) := by
  intro turns
  induction turns with
  | nil => intro s v _; rfl
  | cons t ts ih =>
    intro s v h
    have h0 : ¬ ((s, v).2 < segTurnOverlap seg t) :=
      not_lt.mpr (h t (List.mem_cons_self _ _))
    have hstep : bestStep seg (s, v) t = (s, v) := by
      simp [bestStep, h0]
    rw [List.foldl_cons, hstep]
    exact ih s v fun t' ht' => h t' (List.mem_cons_of_mem _ ht')

/-- When some turn strictly beats the starting overlap, the inner loop of
`assign_speakers` ends at the first turn achieving the maximal overlap. -/
theorem bestFold_first_argmax (seg : TranscriptSegment) :
    ∀ (turns : List Turn) (s₀ : String) (v₀ M : ℚ) (tstar : Turn),
      M = (turns.map (segTurnOverlap seg)).foldl max v₀ →
      v₀ < M →
      turns.find? (fun t => segTurnOverlap seg t == M) = some tstar →
      turns.foldl (bestStep seg) (s₀, v₀) = (tstar.label, M) := by
  intro turns
  induction turns with
  | nil =>
    intro s v M tstar hM hv hfind
    cases hfind
  | cons t ts ih =>
    intro s v M tstar hM hv hfind
    have hMcons : M = (ts.map (segTurnOverlap seg)).foldl max (max v (segTurnOverlap seg t)) := by
      simpa [List.foldl_cons] using hM
    by_cases hlt : v < segTurnOverlap seg t
    · have hstep : bestStep seg (s, v) t = (t.label, segTurnOverlap seg t) := by
        simp [bestStep, hlt]
      by_cases heq : segTurnOverlap seg t = M
      · have hp : (segTurnOverlap seg t == M) = true := beq_iff_eq.mpr heq
        have hts : tstar = t := by
          simp only [List.find?_cons, hp] at hfind
          exact (Option.some_inj.mp hfind).symm
        rw [hts]
        rw [List.foldl_cons, hstep, heq]
        refine bestFold_no_improve seg ts _ M ?_
        intro t' ht'
        calc segTurnOverlap seg t'
            ≤ (ts.map (segTurnOverlap seg)).foldl max (max v (segTurnOverlap seg t)) :=
              mem_le_foldl_max _ _ _ (List.mem_map_of_mem _ ht')
          _ = M := hMcons.symm
      · have hp : (segTurnOverlap seg t == M) = false := by
          simp [heq]
        rw [List.find?_cons] at hfind
        rw [hp] at hfind
        have hmax : max v (segTurnOverlap seg t) = segTurnOverlap seg t :=
          max_eq_right (le_of_lt hlt)
        have hM' : M = (ts.map (segTurnOverlap seg)).foldl max (segTurnOverlap seg t) := by
          rw [hMcons, hmax]
        have hlt' : segTurnOverlap seg t < M := by
          have hle : segTurnOverlap seg t ≤ M := by
            rw [hM']
            exact le_foldl_max _ _
          exact lt_of_le_of_ne hle heq
        rw [List.foldl_cons, hstep]
        exact ih t.label (segTurnOverlap seg t) M tstar hM' hlt' hfind
    · have hstep : bestStep seg (s, v) t = (s, v) := by
        simp [bestStep, hlt]
      have hle : segTurnOverlap seg t ≤ v := not_lt.mp hlt
      have hne : segTurnOverlap seg t ≠ M := fun hc => absurd hv (not_lt.mpr (hc ▸ hle))
      have hp : (segTurnOverlap seg t == M) = false := by
        simp [hne]
      rw [List.find?_cons] at hfind
      rw [hp] at hfind
      have hmax : max v (segTurnOverlap seg t) = v := max_eq_left hle
      have hM' : M = (ts.map (segTurnOverlap seg)).foldl max v := by
        rw [hMcons, hmax]
      rw [List.foldl_cons, hstep]
      exact ih s v M tstar hM' hv hfind

/-- When the maximal overlap is positive, a first turn achieving it
exists. -/
theorem exists_first_argmax (seg : TranscriptSegment) (turns : List Turn)
    (M : ℚ) (hM : M = (turns.map (segTurnOverlap seg)).foldl max 0)
    (h : 0 < M) :
    ∃ tstar, turns.find? (fun t => segTurnOverlap seg t == M) = some tstar := by
  rcases foldl_max_cases (turns.map (segTurnOverlap seg)) 0 with h0 | ⟨x, hx, hfx⟩
  · rw [hM, h0] at h
    exact absurd h (lt_irrefl 0)
  · obtain ⟨t, ht, rfl⟩ := List.mem_map.mp hx
    have hsome : (turns.find? (fun t' => segTurnOverlap seg t' == M)).isSome := by
      rw [List.find?_isSome]
      exact ⟨t, ht, beq_iff_eq.mpr (by rw [hM, hfx])⟩
    exact Option.isSome_iff_exists.mp hsome

/-- If polls `start..start+k-1` are all non-terminal and poll `start+k`
classifies as terminal with result `r`, the loop returns `r` (provided the
deadline admits iteration `k`). -/
theorem pollLoop_first_terminal {ρ : Type} (polls : Nat → PollResponse ρ) :
    ∀ (fuel k start : Nat), k < fuel →
      (∀ j, j < k → pollClassify (polls (start + j)) = none) →
      ∀ r, pollClassify (polls (start + k)) = some r →
      pollLoop polls fuel start = r := by
  intro fuel
  induction fuel with
  | zero => omega
  | succ n ih =>
    intro k start hk hbefore r hr
    cases k with
    | zero =>
      simp only [Nat.add_zero] at hr
      simp [pollLoop, hr]
    | succ m =>
      have h0 : pollClassify (polls start) = none := by
        have := hbefore 0 (by omega)
        simpa using this
      have hrec : pollLoop polls n (start + 1) = r := by
        refine ih m (start + 1) (by omega) ?_ r ?_
        · intro j hj
          have := hbefore (j + 1) (by omega)
          simpa [Nat.add_assoc, Nat.add_comm 1 j] using this
        · have := hr
          simpa [Nat.add_assoc, Nat.add_comm 1 m] using this
      simp [pollLoop, h0, hrec]

/-- If every poll the deadline admits is non-terminal, the loop ends with
the timeout failure. -/
theorem pollLoop_all_none {ρ : Type} (polls : Nat → PollResponse ρ) :
    ∀ (fuel start : Nat),
      (∀ j, j < fuel → pollClassify (polls (start + j)) = none) →
      pollLoop polls fuel start = .ok pollTimeoutResult := by
  intro fuel
  induction fuel with
  | zero => intro start _; rfl
  | succ n ih =>
    intro start h
    have h0 : pollClassify (polls start) = none := by
      have := h 0 (by omega)
      simpa using this
    have hrec : pollLoop polls n (start + 1) = .ok pollTimeoutResult := by
      refine ih (start + 1) ?_
      intro j hj
      have := h (j + 1) (by omega)
      simpa [Nat.add_assoc, Nat.add_comm 1 j] using this
    simp [pollLoop, h0, hrec]

/-- The slot count realizes the deadline: iteration `k` (whose sleep ends
at time `(k+1)·poll_interval`, having been entered at `k·poll_interval`)
runs iff `k·poll_interval < timeout`. -/
theorem numPollSlots_spec (timeout pollInterval : ℚ)
    (h : 0 < pollInterval) (k : Nat) :
    k < numPollSlots timeout pollInterval ↔ (k : ℚ) * pollInterval < timeout := by
  unfold numPollSlots
  rw [Int.lt_toNat, Int.lt_ceil]
  push_cast
  exact lt_div_iff₀ h

/-- The transcript upsert turns an at-most-one-row table into an
exactly-one-row table for the meeting. -/
theorem countP_upsertTranscript {σ : Type} (mid : Nat) (fullText fmt : String)
    (stats : σ) (ts : List (TransRec σ))
    (h : ts.countP (fun t => t.meeting_id == mid) ≤ 1) :
    (upsertTranscript mid fullText fmt stats ts).countP
      (fun t => t.meeting_id == mid) = 1 := by
  induction ts with
  | nil => simp [upsertTranscript]
  | cons t ts ih =>
    by_cases ht : t.meeting_id = mid
    · have hb : (t.meeting_id == mid) = true := beq_iff_eq.mpr ht
      have hc : (t :: ts).countP (fun t => t.meeting_id == mid)
          = ts.countP (fun t => t.meeting_id == mid) + 1 := by
        rw [List.countP_cons]
        simp [hb]
      have h0 : ts.countP (fun t => t.meeting_id == mid) = 0 := by omega
      simp [upsertTranscript, hb, List.countP_cons, h0]
    · have hb : (t.meeting_id == mid) = false := by simp [ht]
      have hc : (t :: ts).countP (fun t => t.meeting_id == mid)
          = ts.countP (fun t => t.meeting_id == mid) := by
        rw [List.countP_cons]
        simp [hb]
      have h' : ts.countP (fun t => t.meeting_id == mid) ≤ 1 := by omega
      simp [upsertTranscript, hb, List.countP_cons, ih h']

/-! ## Claims -/

/-- C7: `JobStore.create_job(job_id, meeting_id)` inserts a row with status
`queued`, `created_at = now`, and the model defaults for the other columns,
appended to the unchanged table; when a row with that `job_id` already
exists it fails with the duplicate-job error and the table is unchanged. -/
theorem create_job_spec {ρ : Type} (now : Time) (jid : String) (mid : Nat)
    (store : List (JobRec ρ)) :
    ((∀ r ∈ store, r.job_id ≠ jid) →
      create_job now jid mid store =
        (store ++ [{ job_id := jid, meeting_id := mid, status := "queued",
                     created_at := now, updated_at := now,
                     result := none, error := none }], none)) ∧
    ((∃ r ∈ store, r.job_id = jid) →
      create_job now jid mid store = (store, some .duplicateJob)) := by
  constructor
  · intro h
    have hfalse : store.any (fun r => r.job_id == jid) = false := by
      simp only [List.any_eq_false, beq_iff_eq]
      exact h
    simp [create_job, hfalse]
  · intro h
    have htrue : store.any (fun r => r.job_id == jid) = true := by
      simp only [List.any_eq_true, beq_iff_eq]
      exact h
    simp [create_job, htrue]

/-- Witness for C7: both branches at concrete inputs. -/
theorem create_job_spec_witness :
    (create_job (ρ := Unit) 0 "a" 1 [] =
      ([] ++ [{ job_id := "a", meeting_id := 1, status := "queued",
                created_at := 0, updated_at := 0,
                result := none, error := none }], none)) ∧
    (create_job (ρ := Unit) 0 "a" 2
        [{ job_id := "a", meeting_id := 1, status := "queued",
           created_at := 0, updated_at := 0, result := none, error := none }] =
      ([{ job_id := "a", meeting_id := 1, status := "queued",
          created_at := 0, updated_at := 0, result := none, error := none }],
       some .duplicateJob)) := by
  constructor
  · exact (create_job_spec 0 "a" 1 []).1 (by simp)
  · exact (create_job_spec 0 "a" 2 _).2
      ⟨{ job_id := "a", meeting_id := 1, status := "queued",
         created_at := 0, updated_at := 0, result := none, error := none },
       by simp, rfl⟩

/-- C10: `JobStore.update_status(job_id, status)` with `result=None` and
`error=None` relates the old and new tables row by row: every row keeps its
`job_id`, `meeting_id`, `created_at`, `result` and `error`, and is either
entirely unchanged or (when its `job_id` matches) gets the new status and a
fresh `updated_at`; moreover if a matching row exists, some row ends up
with the new status and `updated_at = now`. -/
theorem update_status_frame {ρ : Type} (now : Time) (jid st : String)
    (store : List (JobRec ρ)) :
    List.Forall₂
      (fun r r' =>
        r'.job_id = r.job_id ∧ r'.meeting_id = r.meeting_id ∧
        r'.created_at = r.created_at ∧ r'.result = r.result ∧ r'.error = r.error ∧
        (r' = r ∨ (r.job_id = jid ∧ r'.status = st ∧ r'.updated_at = now)))
      store (update_status now jid st none none store) ∧
    ((∃ r ∈ store, r.job_id = jid) →
      ∃ r' ∈ update_status now jid st none none store,
        r'.job_id = jid ∧ r'.status = st ∧ r'.updated_at = now) := by
  induction store with
  | nil => simp [update_status]
  | cons r rs ih =>
    by_cases h : r.job_id = jid
    · have hb : (r.job_id == jid) = true := beq_iff_eq.mpr h
      constructor
      · simp only [update_status, hb, if_pos]
        exact List.Forall₂.cons
          ⟨rfl, rfl, rfl, rfl, rfl, Or.inr ⟨h, rfl, rfl⟩⟩
          (List.forall₂_same.mpr fun x _ => ⟨rfl, rfl, rfl, rfl, rfl, Or.inl rfl⟩)
      · intro _
        refine ⟨{ r with status := st, updated_at := now }, ?_, h, rfl, rfl⟩
        have hu : update_status now jid st none none (r :: rs) =
            { r with status := st, updated_at := now } :: rs := by
          simp [update_status, hb]
        rw [hu]
        exact List.mem_cons_self _ _
    · have hb : (r.job_id == jid) = false := by simp [h]
      constructor
      · simp only [update_status, hb, Bool.false_eq_true, if_neg, not_false_iff]
        exact List.Forall₂.cons ⟨rfl, rfl, rfl, rfl, rfl, Or.inl rfl⟩ ih.1
      · rintro ⟨r₀, hr₀, hjid⟩
        rcases List.mem_cons.mp hr₀ with heq | hmem
        · exact absurd (heq ▸ hjid) h
        · obtain ⟨r', hr', hprops⟩ := ih.2 ⟨r₀, hmem, hjid⟩
          refine ⟨r', ?_, hprops⟩
          simp [update_status, hb]
          exact Or.inr hr'

/-- Witness for C10 at a two-row table. -/
theorem update_status_frame_witness :
    ∃ r' ∈ update_status (ρ := Unit) 5 "b" "completed" none none
        [{ job_id := "a", meeting_id := 1, status := "queued", created_at := 0,
           updated_at := 0, result := none, error := some "boom" },
         { job_id := "b", meeting_id := 2, status := "processing", created_at := 1,
           updated_at := 1, result := none, error := none }],
      r'.job_id = "b" ∧ r'.status = "completed" ∧ r'.updated_at = 5 := by
  refine (update_status_frame 5 "b" "completed" _).2
    ⟨{ job_id := "b", meeting_id := 2, status := "processing", created_at := 1,
       updated_at := 1, result := none, error := none }, by simp, rfl⟩

/-- C6 counterexample: a `completed` frontend job whose `created_at` is
older than the default TTL of 24 hours (it is `isOldTerminal` at
`now = 100`h) is still in the job table after the startup sequence runs,
because `lifespan` never invokes the terminal-job garbage collection. -/
theorem lifespan_startup_keeps_stale_job :
    ({ job_id := "job-1", meeting_id := 1, status := "completed", created_at := 0,
       updated_at := 0, result := none, error := none : JobRec Unit } ∈
      lifespan_startup
        [{ job_id := "job-1", meeting_id := 1, status := "completed", created_at := 0,
           updated_at := 0, result := none, error := none }]) ∧
    isOldTerminal 100 24
      { job_id := "job-1", meeting_id := 1, status := "completed", created_at := 0,
        updated_at := 0, result := none, error := none : JobRec Unit } = true := by
  constructor
  · simp [lifespan_startup]
  · simp only [isOldTerminal]
    norm_num

/-- C6 amended: the startup sequence performs no job-table cleanup (it
leaves the rows exactly as found), while `JobStore.cleanup_old_jobs`, when
it is invoked, deletes exactly the completed/failed jobs with
`created_at < now - max_age_hours` and returns the deleted count. -/
theorem startup_and_cleanup_spec {ρ : Type} (now ttl : Time)
    (store : List (JobRec ρ)) :
    lifespan_startup store = store ∧
    (∀ r ∈ (cleanup_old_jobs now ttl store).1, isOldTerminal now ttl r = false) ∧
    (∀ r ∈ store, isOldTerminal now ttl r = false →
      r ∈ (cleanup_old_jobs now ttl store).1) ∧
    (cleanup_old_jobs now ttl store).1.length + (cleanup_old_jobs now ttl store).2
      = store.length := by
  refine ⟨rfl, ?_, ?_, ?_⟩
  · intro r hr
    have := List.of_mem_filter hr
    simpa using this
  · intro r hr h
    exact List.mem_filter.mpr ⟨hr, by simp [h]⟩
  · simp only [cleanup_old_jobs]
    induction store with
    | nil => simp
    | cons r rs ih =>
      by_cases h : isOldTerminal now ttl r = true
      · simp [List.filter_cons, h]
        omega
      · simp only [Bool.not_eq_true] at h
        simp [List.filter_cons, h]
        omega

/-- Witness for C6's amended claim: a fresh completed job survives an
explicit cleanup call. -/
theorem startup_and_cleanup_spec_witness :
    { job_id := "f", meeting_id := 2, status := "completed", created_at := 90,
      updated_at := 90, result := none, error := none : JobRec Unit } ∈
      (cleanup_old_jobs 100 24
        [{ job_id := "s", meeting_id := 1, status := "failed", created_at := 0,
           updated_at := 0, result := none, error := none },
         { job_id := "f", meeting_id := 2, status := "completed", created_at := 90,
           updated_at := 90, result := none, error := none }]).1 := by
  refine (startup_and_cleanup_spec 100 24 _).2.2.1 _ (by simp) ?_
  simp only [isOldTerminal]
  norm_num

/-- C4: the orchestrator `TranscriptionService.transcribe` returns a
successful GPU submit/poll result as-is (no fallback call); when the GPU
is unavailable or its result unsuccessful it runs the configured fallback
exactly once and returns its result, which always carries
`used_fallback = true`; with no fallback configured it returns the fixed
`"GPU unavailable and fallback disabled"` failure; the fallback is never
invoked more than once. -/
theorem transcription_service_spec {ρ : Type} (env : TranscribeEnv ρ) :
    (env.gpu_available = true → env.gpuResult.success = true →
      TranscriptionService.transcribe env = (env.gpuResult, 0)) ∧
    ((env.gpu_available = false ∨ env.gpuResult.success = false) →
      (∀ out, env.fallbackOutcome = some out →
        TranscriptionService.transcribe env = (FallbackTranscriber.transcribe out, 1) ∧
        (FallbackTranscriber.transcribe out).used_fallback = true) ∧
      (env.fallbackOutcome = none →
        TranscriptionService.transcribe env =
          ({ success := false, error := some "GPU unavailable and fallback disabled" }, 0))) ∧
    (TranscriptionService.transcribe env).2 ≤ 1 := by
  obtain ⟨gpu, res, fo⟩ := env
  cases gpu <;> cases hs : res.success <;> cases fo <;>
    simp [TranscriptionService.transcribe, hs, fallback_always_marks_used]

/-- Witness for C4: GPU path failing with a configured fallback, at
concrete inputs. -/
theorem transcription_service_spec_witness :
    TranscriptionService.transcribe (ρ := Unit)
      { gpu_available := true,
        gpuResult := { success := false, error := some "worker rejected" },
        fallbackOutcome := some (.pipelineOk { segments := some () }) } =
      (FallbackTranscriber.transcribe (.pipelineOk { segments := some () }), 1) := by
  exact ((transcription_service_spec _).2.1 (Or.inr rfl) |>.1 _ rfl).1

/-- C1 (code bug): the background task's `process_meeting(...)` call
(`worker_server.py:206`) passes the keyword arguments `transcriber` and
`on_progress`, which the imported `transcribe.process_meeting`
(`transcribe.py:20`) does not declare, so the call raises `TypeError`
before the pipeline runs: whatever the pipeline would have computed, the
job record is written `{status: failed, error: str(TypeError ...),
completed_at}` and the completed path is unreachable. -/
theorem run_transcription_always_fails {ρ : Type} (job : WorkerJob ρ)
    (pipeline : Unit → Except String ρ) (tStart tEnd : ℚ) :
    kwargCallAccepted process_meeting_params run_transcription_call_kwargs = false ∧
    (_run_transcription job pipeline tStart tEnd).status = .failed ∧
    (_run_transcription job pipeline tStart tEnd).error =
      some "TypeError: process_meeting got an unexpected keyword argument transcriber" ∧
    (_run_transcription job pipeline tStart tEnd).completed_at = some tEnd ∧
    (_run_transcription job pipeline tStart tEnd).result = job.result := by
  have h : kwargCallAccepted process_meeting_params run_transcription_call_kwargs
      = false := by decide
  refine ⟨h, ?_, ?_, ?_, ?_⟩ <;>
    simp [_run_transcription, invoke_process_meeting, h]

/-- C8: after `save_transcript` the segment rows of the meeting are exactly
the rows built from the call's segments, in order (earlier rows of the
meeting are all removed in the same transaction); segment rows of every
other meeting are untouched; and, given the unique-constraint invariant
that the meeting had at most one transcript row before the call, exactly
one transcript row for the meeting exists afterwards. Applied to the state
left by a first `save_transcript`, this gives that a second call leaves
exactly the second call's segments. -/
theorem save_transcript_spec {σ : Type} (now : Time) (mid : Nat)
    (segs : List SegIn) (fmt : String) (stats : σ) (st : RepoState σ) :
    (save_transcript now mid segs fmt stats st).segments.filter
        (fun s => s.meeting_id == mid) = segs.map (SegIn.toRow mid) ∧
    (∀ other : Nat, other ≠ mid →
      (save_transcript now mid segs fmt stats st).segments.filter
          (fun s => s.meeting_id == other) =
        st.segments.filter (fun s => s.meeting_id == other)) ∧
    (st.transcripts.countP (fun t => t.meeting_id == mid) ≤ 1 →
      (save_transcript now mid segs fmt stats st).transcripts.countP
          (fun t => t.meeting_id == mid) = 1) := by
  refine ⟨?_, ?_, ?_⟩
  · show ((st.segments.filter fun s => !(s.meeting_id == mid))
        ++ segs.map (SegIn.toRow mid)).filter (fun s => s.meeting_id == mid)
      = segs.map (SegIn.toRow mid)
    rw [List.filter_append]
    have h1 : (st.segments.filter fun s => !(s.meeting_id == mid)).filter
        (fun s => s.meeting_id == mid) = [] := by
      rw [List.filter_eq_nil_iff]
      intro a ha
      have := List.of_mem_filter ha
      simp at this
      simp [this]
    have h2 : (segs.map (SegIn.toRow mid)).filter (fun s => s.meeting_id == mid)
        = segs.map (SegIn.toRow mid) := by
      rw [List.filter_eq_self]
      intro a ha
      obtain ⟨x, _, rfl⟩ := List.mem_map.mp ha
      simp [SegIn.toRow]
    rw [h1, h2, List.nil_append]
  · intro other hother
    show ((st.segments.filter fun s => !(s.meeting_id == mid))
        ++ segs.map (SegIn.toRow mid)).filter (fun s => s.meeting_id == other)
      = st.segments.filter (fun s => s.meeting_id == other)
    rw [List.filter_append]
    have h2 : (segs.map (SegIn.toRow mid)).filter (fun s => s.meeting_id == other)
        = [] := by
      rw [List.filter_eq_nil_iff]
      intro a ha
      obtain ⟨x, _, rfl⟩ := List.mem_map.mp ha
      simp [SegIn.toRow]
      exact fun h => hother h.symm
    rw [h2, List.append_nil, List.filter_filter]
    apply List.filter_congr
    intro s _
    by_cases hs : s.meeting_id = other
    · simp [hs]
      exact hother
    · simp [hs]
  · intro h
    exact countP_upsertTranscript mid _ fmt stats st.transcripts h

/-- Witness for C8: a re-transcription at concrete inputs. -/
theorem save_transcript_spec_witness :
    (save_transcript (σ := Unit) 7 1 [{ speaker := "Speaker 1", text := "new", start := 0, stop := 2 }]
        "fmt" () { transcripts := [{ meeting_id := 1, full_text := "old", formatted := "o", stats := () }],
                   segments := [{ meeting_id := 1, speaker := "Speaker 1", text := "old", start_time := 0, end_time := 1 },
                                { meeting_id := 2, speaker := "S", text := "other", start_time := 3, end_time := 4 }],
                   meetings := [{ id := 1, status := "processing", updated_at := 0 }] }).segments.filter
        (fun s => s.meeting_id == 1) =
      [{ meeting_id := 1, speaker := "Speaker 1", text := "new", start_time := 0, end_time := 2 }] ∧
    (save_transcript (σ := Unit) 7 1 [{ speaker := "Speaker 1", text := "new", start := 0, stop := 2 }]
        "fmt" () { transcripts := [{ meeting_id := 1, full_text := "old", formatted := "o", stats := () }],
                   segments := [{ meeting_id := 1, speaker := "Speaker 1", text := "old", start_time := 0, end_time := 1 },
                                { meeting_id := 2, speaker := "S", text := "other", start_time := 3, end_time := 4 }],
                   meetings := [{ id := 1, status := "processing", updated_at := 0 }] }).transcripts.countP
        (fun t => t.meeting_id == 1) = 1 := by
  refine ⟨?_, ?_⟩
  · exact (save_transcript_spec 7 1 _ "fmt" () _).1
  · exact (save_transcript_spec 7 1 _ "fmt" () _).2.2 (by simp)

/-- C2 counterexample: start from a fresh database (version 0, empty log)
with an engine in which migration 1's statement succeeds and migration 2's
first statement fails with `"syntax error"` (not a duplicate-column
message). `_run_migrations` raises, and because the whole loop runs inside
ONE `engine.begin()` transaction the committed state is the original one:
version still 0 and migration 1's statement not committed — contradicting
the claim that the earlier migration's statements and version update
remain committed when a later migration fails. -/
theorem migrations_rollback_counterexample :
    _run_migrations
        (fun s => if s == migration1Sql then none else some "syntax error")
        MIGRATIONS { version := 0, log := [] } = .error "syntax error" ∧
    migrationsCommitted
        (fun s => if s == migration1Sql then none else some "syntax error")
        MIGRATIONS { version := 0, log := [] } = { version := 0, log := [] } ∧
    (migrationsCommitted
        (fun s => if s == migration1Sql then none else some "syntax error")
        MIGRATIONS { version := 0, log := [] }).log.contains migration1Sql = false := by
  refine ⟨by rfl, by rfl, by rfl⟩

/-- C2 amended: on startup `_run_migrations` applies, in declaration order
(ascending versions), exactly the migrations with version greater than the
stored version — for a fresh database every executed statement of
migration 1 precedes every statement of migration 2, ending at version 2 —
but the whole run is ONE transaction, not one per migration: if any
statement fails with a non-duplicate-column error, the statements and
version updates of ALL migrations of the run (including earlier,
already-executed ones) are rolled back and the committed state is exactly
the original one. -/
theorem run_migrations_spec (ex : String → Option String) (db : MigrationDB) :
    (∀ e, _run_migrations ex MIGRATIONS db = .error e →
      migrationsCommitted ex MIGRATIONS db = db) ∧
    (db.version = 0 → ∀ db', _run_migrations ex MIGRATIONS db = .ok db' →
      db'.version = 2 ∧
      db'.log = db.log ++ [migration1Sql].filter (fun s => (ex s).isNone)
        ++ [migration2SqlCreate, migration2SqlIndex].filter (fun s => (ex s).isNone)) ∧
    (db.version = 1 → ∀ db', _run_migrations ex MIGRATIONS db = .ok db' →
      db'.version = 2 ∧
      db'.log = db.log
        ++ [migration2SqlCreate, migration2SqlIndex].filter (fun s => (ex s).isNone)) ∧
    (2 ≤ db.version → _run_migrations ex MIGRATIONS db = .ok db) := by
  refine ⟨?_, ?_, ?_, ?_⟩
  · intro e he
    simp [migrationsCommitted, he]
  · intro h0 db' hok
    simp only [_run_migrations, MIGRATIONS, h0, runMigrationsFrom] at hok
    norm_num at hok
    rcases h1 : runStatements ex db [migration1Sql] with e1 | a1 <;>
      rw [h1] at hok <;> simp only [] at hok
    · exact Except.noConfusion hok
    · rcases h2 : runStatements ex { a1 with version := 1 }
          [migration2SqlCreate, migration2SqlIndex] with e2 | a2 <;>
        rw [h2] at hok <;> simp only [] at hok
      · exact Except.noConfusion hok
      · obtain ⟨hv1, hl1⟩ := runStatements_ok ex _ _ _ h1
        obtain ⟨hv2, hl2⟩ := runStatements_ok ex _ _ _ h2
        cases hok
        exact ⟨rfl, by simp [hl1, hl2, List.append_assoc]⟩
  · intro h1v db' hok
    simp only [_run_migrations, MIGRATIONS, h1v, runMigrationsFrom] at hok
    norm_num at hok
    rcases h2 : runStatements ex db
        [migration2SqlCreate, migration2SqlIndex] with e2 | a2 <;>
      rw [h2] at hok <;> simp only [] at hok
    all_goals try exact Except.noConfusion hok
    obtain ⟨hv2, hl2⟩ := runStatements_ok ex _ _ _ h2
    cases hok
    exact ⟨rfl, hl2⟩
  · intro h2v
    have g1 : (1 ≤ db.version) := by omega
    simp [_run_migrations, MIGRATIONS, runMigrationsFrom, g1, h2v]

/-- Witness for C2's amended claim: with every statement succeeding on a
fresh database, the run commits version 2 and the statements in
declaration order. -/
theorem run_migrations_spec_witness :
    _run_migrations (fun _ => none) MIGRATIONS { version := 0, log := [] }
      = .ok { version := 2,
              log := [migration1Sql, migration2SqlCreate, migration2SqlIndex] } ∧
    ({ version := 2,
       log := [migration1Sql, migration2SqlCreate, migration2SqlIndex] } : MigrationDB).version = 2 := by
  have h := (run_migrations_spec (fun _ => none) { version := 0, log := [] }).2.1 rfl
  have hrun : _run_migrations (fun _ => none) MIGRATIONS { version := 0, log := [] }
      = .ok { version := 2,
              log := [migration1Sql, migration2SqlCreate, migration2SqlIndex] } := by rfl
  exact ⟨hrun, (h _ hrun).1⟩

/-- C5 counterexample: a 404 on the first poll ends polling with the
error string `"Worker lost track of job (possible restart)"` — with a
capital `W`, as written at `gpu_client.py:186` — which is a different
string from the claim's `"worker lost track of job (possible restart)"`. -/
theorem poll_404_message_counterexample :
    _poll_until_complete (ρ := Unit)
        (fun _ => .http 404 { status := "queued" }) 10 1
      = .ok { success := false,
              error := some "Worker lost track of job (possible restart)" } ∧
    ((some "Worker lost track of job (possible restart)" : Option String)
      ≠ some "worker lost track of job (possible restart)") := by
  constructor
  · have hslots : numPollSlots 10 1 = 10 := by
      norm_num [numPollSlots]
      rfl
    unfold _poll_until_complete
    rw [hslots]
    rfl
  · decide

/-- C5 amended: during the polling phase, a 404 at the first terminal poll
ends polling with the failure `"Worker lost track of job (possible
restart)"` (capital W as in the source); a 401 or 403 ends polling at that
single attempt with the authentication failure (the result is fixed by the
polls up to that attempt — no retry); transport errors, unexpected status
codes and 200-responses in a non-terminal status never terminate the loop;
if every poll the deadline admits is non-terminal, the timeout failure is
returned; and the number of admitted polls realizes the deadline
`start + timeout` in steps of `poll_interval`. -/
theorem poll_until_complete_spec {ρ : Type} (polls : Nat → PollResponse ρ)
    (timeout pollInterval : ℚ) :
    (∀ k body, k < numPollSlots timeout pollInterval →
      (∀ j, j < k → pollClassify (polls j) = none) →
      polls k = .http 404 body →
      _poll_until_complete polls timeout pollInterval
        = .ok { success := false,
                error := some "Worker lost track of job (possible restart)" }) ∧
    (∀ k code body, k < numPollSlots timeout pollInterval →
      (∀ j, j < k → pollClassify (polls j) = none) →
      (code = 401 ∨ code = 403) →
      polls k = .http code body →
      _poll_until_complete polls timeout pollInterval
        = .ok { success := false,
                error := some ("Worker authentication failed ("
                  ++ toString code ++ ")") }) ∧
    pollClassify (ρ := ρ) .transportError = none ∧
    (∀ code body, code ≠ 404 → code ≠ 401 → code ≠ 403 → code ≠ 200 →
      pollClassify (ρ := ρ) (.http code body) = none) ∧
    (∀ body, body.status ≠ "completed" → body.status ≠ "failed" →
      pollClassify (ρ := ρ) (.http 200 body) = none) ∧
    ((∀ j, j < numPollSlots timeout pollInterval → pollClassify (polls j) = none) →
      _poll_until_complete polls timeout pollInterval = .ok pollTimeoutResult) ∧
    (0 < pollInterval → ∀ k,
      (k < numPollSlots timeout pollInterval ↔ (k : ℚ) * pollInterval < timeout)) := by
  refine ⟨?_, ?_, rfl, ?_, ?_, ?_, fun h k => numPollSlots_spec timeout pollInterval h k⟩
  · intro k body hk hbefore hpoll
    unfold _poll_until_complete
    refine pollLoop_first_terminal polls _ k 0 hk ?_ _ ?_
    · intro j hj
      simpa using hbefore j hj
    · simp only [Nat.zero_add, hpoll]
      rfl
  · intro k code body hk hbefore hcode hpoll
    unfold _poll_until_complete
    refine pollLoop_first_terminal polls _ k 0 hk ?_ _ ?_
    · intro j hj
      simpa using hbefore j hj
    · simp only [Nat.zero_add, hpoll]
      rcases hcode with h | h <;> subst h <;> rfl
  · intro code body h404 h401 h403 h200
    simp [pollClassify, h404, h401, h403, h200]
  · intro body hc hf
    simp [pollClassify, hc, hf]
  · intro h
    unfold _poll_until_complete
    refine pollLoop_all_none polls _ 0 ?_
    intro j hj
    simpa using h j hj

/-- Witness for C5: an auth failure on the second poll after one transport
error, at concrete inputs. -/
theorem poll_until_complete_spec_witness :
    _poll_until_complete (ρ := Unit)
        (fun k => if k = 0 then .transportError else .http 401 { status := "queued" })
        10 1
      = .ok { success := false,
              error := some "Worker authentication failed (401)" } := by
  refine ((poll_until_complete_spec
      (fun k => if k = 0 then PollResponse.transportError
                else .http 401 { status := "queued" }) 10 1).2.1)
    1 401 { status := "queued" } ?_ ?_ (Or.inl rfl) rfl
  · have hslots : numPollSlots 10 1 = 10 := by
      norm_num [numPollSlots]
      rfl
    rw [hslots]
    norm_num
  · intro j hj
    have hj0 : j = 0 := by omega
    subst hj0
    rfl

/-- C9 counterexample: a segment that overlaps no diarization turn keeps
its existing speaker (`diarizer.py:82`, "Keep existing if no overlap")
instead of taking the maximally-overlapping turn's label: for the segment
`[0,1]` and the single turn `[2,3]` labelled `SPEAKER_00` (overlap `-1`,
which is the maximum over the turn list), the claim would assign
`"Speaker 1"` but the code leaves `"Interlocuteur"`. -/
theorem assign_speakers_no_overlap_counterexample :
    assign_speakers
        [{ speaker := "Interlocuteur", text := "hi", start := 0, stop := 1 }]
        [{ start := 2, stop := 3, label := "SPEAKER_00" }]
      = [{ speaker := "Interlocuteur", text := "hi", start := 0, stop := 1 }] ∧
    ("Interlocuteur" : String) ≠ "Speaker 1" ∧
    _friendly_label "SPEAKER_00" = "Speaker 1" := by
  refine ⟨?_, by decide, by decide⟩
  have hov : segTurnOverlap
      { speaker := "Interlocuteur", text := "hi", start := 0, stop := 1 }
      { start := 2, stop := 3, label := "SPEAKER_00" } = -1 := by
    simp only [segTurnOverlap]
    norm_num [min_def, max_def]
  have hbest : bestTurnFor
      { speaker := "Interlocuteur", text := "hi", start := 0, stop := 1 }
      [{ start := 2, stop := 3, label := "SPEAKER_00" }]
      = ("Interlocuteur", 0) := by
    simp only [bestTurnFor, List.foldl_cons, List.foldl_nil, bestStep, hov]
    norm_num
  have hfl : _friendly_label "Interlocuteur" = "Interlocuteur" := by decide
  simp [assign_speakers, hbest, hfl]

/-- C9 amended: with a non-empty turn list, `assign_speakers` preserves
each segment's text and bounds and rewrites its speaker as follows: when
some turn has positive temporal overlap with the segment, the speaker
becomes the normalized label of the FIRST turn achieving the maximal
overlap (ties in favor of the turn encountered first); when no turn has
positive overlap the segment's own speaker is kept (passed through the
same normalizer, which leaves non-`SPEAKER_NN` names unchanged). The
normalizer maps `SPEAKER_00` to `Speaker 1` and generally `SPEAKER_NN` to
`Speaker NN+1`. -/
theorem assign_speakers_spec (segments : List TranscriptSegment)
    (turns : List Turn) (ht : turns ≠ []) :
    List.Forall₂
      (fun seg seg' =>
        seg'.text = seg.text ∧ seg'.start = seg.start ∧ seg'.stop = seg.stop ∧
        ((∀ t ∈ turns, segTurnOverlap seg t ≤ 0) →
          seg'.speaker = _friendly_label seg.speaker) ∧
        (0 < (turns.map (segTurnOverlap seg)).foldl max 0 →
          ∃ tstar,
            turns.find? (fun t => segTurnOverlap seg t
              == (turns.map (segTurnOverlap seg)).foldl max 0) = some tstar ∧
            (∀ t' ∈ turns, segTurnOverlap seg t' ≤ segTurnOverlap seg tstar) ∧
            seg'.speaker = _friendly_label tstar.label))
      segments (assign_speakers segments turns) ∧
    _friendly_label "SPEAKER_00" = "Speaker 1" ∧
    _friendly_label "SPEAKER_07" = "Speaker 8" ∧
    _friendly_label "SPEAKER_17" = "Speaker 18" := by
  refine ⟨?_, by decide, by decide, by decide⟩
  have hne : turns.isEmpty = false := by
    cases turns with
    | nil => exact absurd rfl ht
    | cons a l => rfl
  rw [assign_speakers, hne]
  simp only [Bool.false_eq_true, if_false]
  rw [List.forall₂_map_right_iff]
  rw [List.forall₂_same]
  intro seg _
  refine ⟨rfl, rfl, rfl, ?_, ?_⟩
  · intro hall
    have hbest : bestTurnFor seg turns = (seg.speaker, 0) :=
      bestFold_no_improve seg turns seg.speaker 0 hall
    simp [bestTurnFor] at hbest
    simp [bestTurnFor, hbest]
  · intro hpos
    obtain ⟨tstar, hfind⟩ :=
      exists_first_argmax seg turns _ rfl hpos
    refine ⟨tstar, hfind, ?_, ?_⟩
    · intro t' ht'
      have hstar : segTurnOverlap seg tstar
          = (turns.map (segTurnOverlap seg)).foldl max 0 := by
        have := List.find?_some hfind
        exact beq_iff_eq.mp this
      rw [hstar]
      exact mem_le_foldl_max _ _ _ (List.mem_map_of_mem _ ht')
    · have hbest : turns.foldl (bestStep seg) (seg.speaker, 0)
          = (tstar.label, (turns.map (segTurnOverlap seg)).foldl max 0) :=
        bestFold_first_argmax seg turns seg.speaker 0 _ tstar rfl hpos hfind
      simp [bestTurnFor, hbest]

/-- Witness for C9's amended claim at a concrete segment and turn list. -/
theorem assign_speakers_spec_witness :
    _friendly_label "SPEAKER_00" = "Speaker 1" ∧
    List.Forall₂
      (fun seg seg' =>
        seg'.text = seg.text ∧ seg'.start = seg.start ∧ seg'.stop = seg.stop ∧
        ((∀ t ∈ [({ start := 0, stop := 2, label := "SPEAKER_00" } : Turn)],
            segTurnOverlap seg t ≤ 0) →
          seg'.speaker = _friendly_label seg.speaker) ∧
        (0 < ([({ start := 0, stop := 2, label := "SPEAKER_00" } : Turn)].map
            (segTurnOverlap seg)).foldl max 0 →
          ∃ tstar,
            [({ start := 0, stop := 2, label := "SPEAKER_00" } : Turn)].find?
              (fun t => segTurnOverlap seg t
                == ([({ start := 0, stop := 2, label := "SPEAKER_00" } : Turn)].map
                  (segTurnOverlap seg)).foldl max 0) = some tstar ∧
            (∀ t' ∈ [({ start := 0, stop := 2, label := "SPEAKER_00" } : Turn)],
              segTurnOverlap seg t' ≤ segTurnOverlap seg tstar) ∧
            seg'.speaker = _friendly_label tstar.label))
      [{ speaker := "local", text := "hi", start := 0, stop := 1 }]
      (assign_speakers
        [{ speaker := "local", text := "hi", start := 0, stop := 1 }]
        [{ start := 0, stop := 2, label := "SPEAKER_00" }]) := by
  have h := assign_speakers_spec
    [{ speaker := "local", text := "hi", start := 0, stop := 1 }]
    [{ start := 0, stop := 2, label := "SPEAKER_00" }] (by decide)
  exact ⟨h.2.1, h.1⟩

/-- C3: in every state of the worker engine reachable from process start,
at most one job slot has status `processing`. In the model a slot enters
`processing` only through the `acquire` step, which requires the
process-wide GPU-slot mutex to be free and takes it in the same
event-loop step (a waiting task simply has no enabled transition — there
is no rejecting step), and a slot leaves the mutex only through `release`,
which requires a terminal status, so the mutex holder is the only
processing slot. -/
theorem worker_at_most_one_processing (s : WorkerEngineState)
    (hs : WorkerReachable s) (i j : Nat)
    (hi : s.jobSt i = some .processing) (hj : s.jobSt j = some .processing) :
    i = j := by
  have hInv := lockInv_reachable s hs
  have h1 := hInv i hi
  have h2 := hInv j hj
  rw [h1] at h2
  exact Option.some_inj.mp h2

/-- Witness for C3: the state reached by one submission followed by its
lock acquisition has slot 0 processing, and the theorem applies to it. -/
theorem worker_at_most_one_processing_witness :
    ({ nJobs := 1,
       jobSt := setSlot (setSlot (fun _ => none) 0 (some .queued)) 0 (some .processing),
       lock := some 0 } : WorkerEngineState).jobSt 0 = some .processing ∧
    (0 : Nat) = 0 := by
  constructor
  · rfl
  · exact worker_at_most_one_processing _
      (WorkerReachable.step
        (WorkerReachable.step WorkerReachable.init (WorkerStep.submit workerInit))
        (WorkerStep.acquire _ 0 rfl rfl))
      0 0 rfl rfl

end MeetScribe
